import Mathlib

/-!
Verification of the i2c core bus-management layer (drivers/i2c/i2c-core-base.c
of the NanoPC-T1 Linux 5.15 tree) against its natural-language specification.

The embedding below translates the C source into Lean definitions:
machine integers become Nat (error returns become Int, negative errno),
oracle-style function pointers (transfer primitives, GPIO line accessors,
clock readings) become explicit Lean functions indexed by invocation count,
and the mutable registry / adapter state becomes explicit state passing.
-/

namespace I2C

/-! ## Error numbers (include/uapi/asm-generic/errno*.h) -/

def EINVAL : Int := 22
def EBUSY : Int := 16
def EAGAIN : Int := 11
def EOPNOTSUPP : Int := 95
def ESHUTDOWN : Int := 108

/-! ## Client flags and address offsets (i2c.h / i2c-core-base.c) -/

def I2C_CLIENT_TEN : Nat := 0x10
def I2C_CLIENT_SLAVE : Nat := 0x20
def I2C_ADDR_OFFSET_TEN_BIT : Nat := 0xa000
def I2C_ADDR_OFFSET_SLAVE : Nat := 0x1000
def I2C_M_RD : Nat := 0x0001

/-- struct i2c_client, restricted to the addressing fields the core's
address-uniqueness logic reads (addr and the flag word). -/
structure Client where
  addr : Nat
  flags : Nat
deriving DecidableEq

/-- i2c_encode_flags_to_addr: the flag-encoded address used as uniqueness key. -/
def i2c_encode_flags_to_addr (client : Client) : Nat :=
  let addr := client.addr
  let addr := if client.flags &&& I2C_CLIENT_TEN ≠ 0 then addr ||| I2C_ADDR_OFFSET_TEN_BIT else addr
  let addr := if client.flags &&& I2C_CLIENT_SLAVE ≠ 0 then addr ||| I2C_ADDR_OFFSET_SLAVE else addr
  addr

/-- i2c_check_addr_validity: permissive validity check (10-bit: ≤ 0x3ff;
7-bit: reject the general call address 0x00 and anything above 0x7f). -/
def i2c_check_addr_validity (addr : Nat) (flags : Nat) : Int :=
  if flags &&& I2C_CLIENT_TEN ≠ 0 then
    if addr > 0x3ff then -EINVAL else 0
  else
    if addr = 0x00 ∨ addr > 0x7f then -EINVAL else 0

/-- i2c_check_7bit_addr_validity_strict: strict check used when probing. -/
def i2c_check_7bit_addr_validity_strict (addr : Nat) : Int :=
  if addr < 0x08 ∨ addr > 0x77 then -EINVAL else 0

/-! ## The mux tree

A device hanging off an adapter is either a client chip or a nested adapter
(an i2c mux channel).  An adapter's position in the tree is given by its own
list of child devices plus the chain of its ancestors' child lists (nearest
parent first), which is what the parent walk of the C code traverses. -/

/-- A child device of an adapter: either a client or a nested mux adapter
with its own children. -/
inductive Dev where
  | client : Client → Dev
  | adapter : List Dev → Dev

/-- i2c_verify_client: returns the client when the device is a client device,
NULL (none) for an adapter device. -/
def i2c_verify_client : Dev → Option Client
  | .client c => some c
  | .adapter _ => none

/-- __i2c_check_addr_busy: -EBUSY when the device is a client whose
flag-encoded address equals the probed address. -/
def __i2c_check_addr_busy (dev : Dev) (addr : Nat) : Int :=
  match i2c_verify_client dev with
  | some client => if i2c_encode_flags_to_addr client = addr then -EBUSY else 0
  | none => 0

/-- device_for_each_child applied to __i2c_check_addr_busy: visit direct
children until one reports a nonzero result. -/
def for_each_child_addr_busy : List Dev → Nat → Int
  | [], _ => 0
  | d :: rest, addr =>
    let r := __i2c_check_addr_busy d addr
    if r ≠ 0 then r else for_each_child_addr_busy rest addr

/-- i2c_check_mux_parents: walk up the mux tree; at each ancestor check only
its direct children with __i2c_check_addr_busy, then recurse to its parent. -/
def i2c_check_mux_parents : List (List Dev) → Nat → Int
  | [], _ => 0
  | children :: parents, addr =>
    let result := for_each_child_addr_busy children addr
    if result = 0 then i2c_check_mux_parents parents addr else result

mutual

/-- i2c_check_mux_children: recurse down the mux tree; adapter children are
walked recursively, client children are checked directly. -/
def i2c_check_mux_children (dev : Dev) (addr : Nat) : Int :=
  match dev with
  | .adapter children => for_each_child_mux children addr
  | .client _ => __i2c_check_addr_busy dev addr

/-- device_for_each_child applied to i2c_check_mux_children. -/
def for_each_child_mux (children : List Dev) (addr : Nat) : Int :=
  match children with
  | [] => 0
  | d :: rest =>
    let r := i2c_check_mux_children d addr
    if r ≠ 0 then r else for_each_child_mux rest addr

end

/-- i2c_check_addr_busy: parent walk (only when this adapter is nested behind
a mux), then the downward walk over the full subtree. -/
def i2c_check_addr_busy (ancestors : List (List Dev)) (children : List Dev)
    (addr : Nat) : Int :=
  let result :=
    match ancestors with
    | [] => 0
    | _ :: _ => i2c_check_mux_parents ancestors addr
  if result = 0 then for_each_child_mux children addr else result

/-! ## Client instantiation (i2c_new_client_device) -/

/-- i2c_lock_addr: per-7-bit-address advisory marker taken during
instantiation (test_and_set_bit on adap->addrs_in_instantiation);
10-bit addresses are exempt. -/
def i2c_lock_addr (bits : List Nat) (addr flags : Nat) : Int × List Nat :=
  if flags &&& I2C_CLIENT_TEN = 0 then
    if addr ∈ bits then (-EBUSY, bits) else (0, addr :: bits)
  else (0, bits)

/-- i2c_unlock_addr: clear_bit on the instantiation marker. -/
def i2c_unlock_addr (bits : List Nat) (addr flags : Nat) : List Nat :=
  if flags &&& I2C_CLIENT_TEN = 0 then bits.erase addr else bits

/-- The addressing fields of struct i2c_board_info read by
i2c_new_client_device. -/
structure BoardInfo where
  addr : Nat
  flags : Nat
deriving DecidableEq

/-- The mutable per-adapter state touched by client instantiation: the list
of child devices and the addrs_in_instantiation bitmap. -/
structure AdapterState where
  children : List Dev
  addrs_in_instantiation : List Nat

/-- i2c_new_client_device: validate the address, take the instantiation
marker, check the flag-encoded address for business across the mux tree, and
register the device (device_register, an external collaborator, is modelled
as succeeding).  On every error path the instantiation marker is released and
no child is added. -/
def i2c_new_client_device (ancestors : List (List Dev)) (st : AdapterState)
    (info : BoardInfo) : Except Int Client × AdapterState :=
  let client : Client := { addr := info.addr, flags := info.flags }
  let status := i2c_check_addr_validity client.addr client.flags
  if status ≠ 0 then (.error status, st)
  else
    let lock := i2c_lock_addr st.addrs_in_instantiation client.addr client.flags
    if lock.1 ≠ 0 then (.error lock.1, st)
    else
      let busy := i2c_check_addr_busy ancestors st.children
        (i2c_encode_flags_to_addr client)
      if busy ≠ 0 then
        (.error busy,
         { st with addrs_in_instantiation :=
             i2c_unlock_addr lock.2 client.addr client.flags })
      else
        (.ok client,
         { children := st.children ++ [Dev.client client],
           addrs_in_instantiation :=
             i2c_unlock_addr lock.2 client.addr client.flags })

/-! ## Client removal (i2c_unregister_device) -/

/-- A pointer returned by the client-creation API: NULL, an ERR_PTR-encoded
errno, or a valid client. -/
inductive ClientPtr where
  | null : ClientPtr
  | errPtr : Int → ClientPtr
  | valid : Client → ClientPtr

/-- IS_ERR_OR_NULL. -/
def IS_ERR_OR_NULL : ClientPtr → Bool
  | .null => true
  | .errPtr _ => true
  | .valid _ => false

/-- i2c_unregister_device: early return on a NULL or error pointer, otherwise
unregister the client from the driver model (modelled as removing it from the
list of registered clients). -/
def i2c_unregister_device (p : ClientPtr) (registered : List Client) : List Client :=
  if IS_ERR_OR_NULL p then registered
  else
    match p with
    | .valid c => registered.erase c
    | _ => registered

/-! ## Adapter registry (i2c_del_adapter) -/

/-- An adapter handle for registry purposes: its bus number and an identity
token (standing for the struct pointer compared by idr_find). -/
structure AdapterRef where
  nr : Nat
  uid : Nat
deriving DecidableEq

/-- The process-wide registry: the i2c_adapter_idr map from bus number to
adapter identity, plus every registered client tagged by its owning
adapter's identity. -/
structure Registry where
  idr : List (Nat × Nat)
  clients : List (Nat × Client)
deriving DecidableEq

/-- idr_find. -/
def idr_find : List (Nat × Nat) → Nat → Option Nat
  | [], _ => none
  | kv :: rest, nr => if kv.1 = nr then some kv.2 else idr_find rest nr

/-- idr_remove. -/
def idr_remove (idr : List (Nat × Nat)) (nr : Nat) : List (Nat × Nat) :=
  idr.filter (fun kv => kv.1 ≠ nr)

/-- i2c_del_adapter: look the bus number up in the idr; if it does not map to
this very adapter, return without touching anything.  Otherwise detach every
client of the adapter and release the bus number. -/
def i2c_del_adapter (adap : AdapterRef) (st : Registry) : Registry :=
  match idr_find st.idr adap.nr with
  | some uid =>
    if uid = adap.uid then
      { idr := idr_remove st.idr adap.nr,
        clients := st.clients.filter (fun pc => pc.1 ≠ adap.uid) }
    else st
  | none => st

/-! ## Quirk validation (i2c_check_for_quirks) -/

def I2C_AQ_COMB : Nat := 1
def I2C_AQ_COMB_WRITE_FIRST : Nat := 2
def I2C_AQ_COMB_READ_SECOND : Nat := 4
def I2C_AQ_COMB_SAME_ADDR : Nat := 8
def I2C_AQ_NO_ZERO_LEN_READ : Nat := 32
def I2C_AQ_NO_ZERO_LEN_WRITE : Nat := 64

/-- struct i2c_msg, with the data buffer elided (quirk validation and
dispatch read only addr, flags and len). -/
structure Msg where
  addr : Nat
  flags : Nat
  len : Nat
deriving DecidableEq

/-- struct i2c_adapter_quirks. -/
structure Quirks where
  flags : Nat
  max_num_msgs : Nat
  max_write_len : Nat
  max_read_len : Nat
  max_comb_1st_msg_len : Nat
  max_comb_2nd_msg_len : Nat
deriving DecidableEq

/-- i2c_quirk_exceeded: val exceeds the quirk iff the quirk is nonzero
(zero means no limit). -/
def i2c_quirk_exceeded (val quirk : Nat) : Bool :=
  decide (quirk ≠ 0 ∧ quirk < val)

/-- The special checks for combined messages (the num == 2 branch of the
I2C_AQ_COMB block); returns the resulting do_len_check on success.
i2c_quirk_error logs and returns -EOPNOTSUPP. -/
def i2c_check_comb_quirk (q : Quirks) (msgs : List Msg) : Except Int Bool :=
  match msgs with
  | [m0, m1] =>
    if q.flags &&& I2C_AQ_COMB_WRITE_FIRST ≠ 0 ∧ m0.flags &&& I2C_M_RD ≠ 0 then
      .error (-EOPNOTSUPP)
    else if q.flags &&& I2C_AQ_COMB_READ_SECOND ≠ 0 ∧ m1.flags &&& I2C_M_RD = 0 then
      .error (-EOPNOTSUPP)
    else if q.flags &&& I2C_AQ_COMB_SAME_ADDR ≠ 0 ∧ m0.addr ≠ m1.addr then
      .error (-EOPNOTSUPP)
    else if i2c_quirk_exceeded m0.len q.max_comb_1st_msg_len then
      .error (-EOPNOTSUPP)
    else if i2c_quirk_exceeded m1.len q.max_comb_2nd_msg_len then
      .error (-EOPNOTSUPP)
    else .ok false
  | _ => .ok true

/-- The per-message body of the final loop of i2c_check_for_quirks:
direction-specific length cap (only when do_len_check is still set) and
zero-length prohibition. -/
def i2c_check_msg_quirk (q : Quirks) (do_len_check : Bool) (m : Msg) : Int :=
  if m.flags &&& I2C_M_RD ≠ 0 then
    if do_len_check && i2c_quirk_exceeded m.len q.max_read_len then -EOPNOTSUPP
    else if q.flags &&& I2C_AQ_NO_ZERO_LEN_READ ≠ 0 ∧ m.len = 0 then -EOPNOTSUPP
    else 0
  else
    if do_len_check && i2c_quirk_exceeded m.len q.max_write_len then -EOPNOTSUPP
    else if q.flags &&& I2C_AQ_NO_ZERO_LEN_WRITE ≠ 0 ∧ m.len = 0 then -EOPNOTSUPP
    else 0

/-- The final per-message loop of i2c_check_for_quirks. -/
def i2c_check_msgs_quirk (q : Quirks) (do_len_check : Bool) : List Msg → Int
  | [] => 0
  | m :: rest =>
    let r := i2c_check_msg_quirk q do_len_check m
    if r ≠ 0 then r else i2c_check_msgs_quirk q do_len_check rest

/-- i2c_check_for_quirks: when I2C_AQ_COMB is declared the message-count
limit becomes 2 and, for an exactly-2-message batch, the combined-message
shape checks replace the general per-message length caps. -/
def i2c_check_for_quirks (q : Quirks) (msgs : List Msg) : Int :=
  let num := msgs.length
  let max_num := if q.flags &&& I2C_AQ_COMB ≠ 0 then 2 else q.max_num_msgs
  let comb : Except Int Bool :=
    if q.flags &&& I2C_AQ_COMB ≠ 0 then i2c_check_comb_quirk q msgs else .ok true
  match comb with
  | .error e => e
  | .ok do_len_check =>
    if i2c_quirk_exceeded num max_num then -EOPNOTSUPP
    else i2c_check_msgs_quirk q do_len_check msgs

/-! ## Transfer engine (__i2c_transfer)

The controller-supplied primitives are modelled as oracles: a function from
the invocation count k to the integer the k-th call returns.  The jiffies
clock is likewise an oracle giving the time observed at the timeout check
that follows the k-th invocation; orig_jiffies is the reading taken before
the first attempt. -/

/-- struct i2c_algorithm: presence (and oracle behaviour) of the normal and
atomic transfer primitives. -/
structure Algo where
  master_xfer : Option (Nat → Int)
  master_xfer_atomic : Option (Nat → Int)

/-- The fields of struct i2c_adapter that __i2c_transfer reads, with the two
bits of locked_flags (I2C_ALF_IS_SUSPENDED, I2C_ALF_SUSPEND_REPORTED) made
explicit. -/
structure Adapter where
  algo : Algo
  quirks : Option Quirks
  retries : Nat
  timeout : Nat
  is_suspended : Bool
  suspend_reported : Bool

/-- __i2c_check_suspended: on a suspended adapter return -ESHUTDOWN, raising
the warning (third component) only the first time, recorded in the
SUSPEND_REPORTED bit of the returned adapter. -/
def __i2c_check_suspended (adap : Adapter) : Int × Adapter × Bool :=
  if adap.is_suspended then
    if adap.suspend_reported then (-ESHUTDOWN, adap, false)
    else (-ESHUTDOWN, { adap with suspend_reported := true }, true)
  else (0, adap, false)

/-- The dispatch inside the retry loop: the atomic primitive when in atomic
transfer mode and the adapter supplies one, the normal primitive otherwise
(the 0 fallback is unreachable: callers have checked master_xfer exists). -/
def i2c_do_xfer (adap : Adapter) (in_atomic : Bool) (k : Nat) : Int :=
  match (if in_atomic then adap.algo.master_xfer_atomic else none) with
  | some fa => fa k
  | none =>
    match adap.algo.master_xfer with
    | some f => f k
    | none => 0

/-- The retry loop of __i2c_transfer: invoke the primitive; any result other
than -EAGAIN ends the loop at once; on -EAGAIN stop when jiffies has passed
orig + timeout, else retry while tries remain.  k counts invocations made so
far; the fuel is retries + 1, so the 0-fuel branch is reached only after an
-EAGAIN result. -/
def i2c_xfer_retry_loop (adap : Adapter) (in_atomic : Bool) (jif : Nat → Nat)
    (orig : Nat) : Nat → Nat → Nat × Int
  | k, 0 => (k, -EAGAIN)
  | k, fuel + 1 =>
    let ret := i2c_do_xfer adap in_atomic k
    if ret ≠ -EAGAIN then (k + 1, ret)
    else if jif k > orig + adap.timeout then (k + 1, ret)
    else i2c_xfer_retry_loop adap in_atomic jif orig (k + 1) fuel

/-- Outcome of __i2c_transfer: the return value, how many times a transfer
primitive was invoked, the adapter (with possibly updated locked_flags) and
whether the suspended warning fired during this call. -/
structure XferResult where
  ret : Int
  ninvoke : Nat
  adap : Adapter
  warned : Bool

/-- __i2c_transfer: no transfer primitive → -EOPNOTSUPP; empty batch →
-EINVAL; suspended adapter → -ESHUTDOWN (reported once); quirk violation →
-EOPNOTSUPP before any bus activity; otherwise run the retry loop. -/
def __i2c_transfer (adap : Adapter) (in_atomic : Bool) (jif : Nat → Nat)
    (orig : Nat) (msgs : List Msg) : XferResult :=
  match adap.algo.master_xfer with
  | none => ⟨-EOPNOTSUPP, 0, adap, false⟩
  | some _ =>
    if msgs.length < 1 then ⟨-EINVAL, 0, adap, false⟩
    else
      let sus := __i2c_check_suspended adap
      if sus.1 ≠ 0 then ⟨sus.1, 0, sus.2.1, sus.2.2⟩
      else
        let quirkBad : Bool :=
          match adap.quirks with
          | some q => i2c_check_for_quirks q msgs != 0
          | none => false
        if quirkBad then ⟨-EOPNOTSUPP, 0, sus.2.1, sus.2.2⟩
        else
          let out := i2c_xfer_retry_loop adap in_atomic jif orig 0 (adap.retries + 1)
          ⟨out.2, out.1, sus.2.1, sus.2.2⟩

/-! ## Generic bus recovery (i2c_generic_scl_recovery)

The GPIO line accessors are oracles indexed by call count: scl_read j is the
j-th get_scl reading, and the optional get_bus_free / get_sda accessors give
the j-th reading taken by the j-th bus-free check. -/

/-- Pin-mux state selected through bri->pinctrl. -/
inductive PinState where
  | default : PinState
  | gpio : PinState
deriving DecidableEq

/-- struct i2c_bus_recovery_info as read by the generic recovery routine:
get_scl readings, presence of set_sda, the optional bus-free accessors, and
whether a pinctrl handle (with pins_gpio / pins_default states) is present. -/
structure RecoveryInfo where
  scl_read : Nat → Bool
  has_set_sda : Bool
  get_bus_free : Option (Nat → Int)
  get_sda : Option (Nat → Int)
  pinctrl : Bool

/-- i2c_generic_bus_free: prefer get_bus_free, fall back to get_sda,
-EOPNOTSUPP when neither exists; a negative reading propagates, otherwise
nonzero means free (0) and zero means still busy (-EBUSY). -/
def i2c_generic_bus_free (bri : RecoveryInfo) (j : Nat) : Int :=
  let ret :=
    match bri.get_bus_free with
    | some f => f j
    | none =>
      match bri.get_sda with
      | some g => g j
      | none => -EOPNOTSUPP
  if ret < 0 then ret
  else if ret ≠ 0 then 0
  else -EBUSY

/-- Outcome of the pulse loop: the final ret and how many get_scl readings
were taken. -/
structure LoopOut where
  ret : Int
  nscl : Nat
deriving DecidableEq

/-- The 18-half-transition pulse loop of i2c_generic_scl_recovery.  At the
top of an scl-high iteration the line is checked: a low reading aborts with
-EBUSY.  Toggling low-to-high is followed by a bus-free check whose success
(0) ends the loop.  jscl / jfree count the oracle readings taken. -/
def scl_recovery_loop (bri : RecoveryInfo) :
    Nat → Bool → Nat → Nat → Int → LoopOut
  | 0, _, jscl, _, ret => ⟨ret, jscl⟩
  | fuel + 1, scl, jscl, jfree, ret =>
    if scl then
      if !bri.scl_read jscl then ⟨-EBUSY, jscl + 1⟩
      else
        scl_recovery_loop bri fuel false (jscl + 1) jfree ret
    else
      let r := i2c_generic_bus_free bri jfree
      if r = 0 then ⟨r, jscl⟩
      else scl_recovery_loop bri fuel true jscl (jfree + 1) r

/-- Outcome of i2c_generic_scl_recovery: the return value, the pin-mux state
on return, and the number of get_scl readings taken. -/
structure RecoveryResult where
  ret : Int
  pins : PinState
  nscl : Nat

def RECOVERY_CLK_CNT : Nat := 9

/-- i2c_generic_scl_recovery: optionally switch the pin-mux to the GPIO
state, drive SCL high (emitting a STOP if SDA is drivable), run up to
RECOVERY_CLK_CNT * 2 half-transitions, treat a missing bus-free check as
success, and switch the pin-mux back to the default state on every exit
path. -/
def i2c_generic_scl_recovery (bri : RecoveryInfo) (pins0 : PinState) :
    RecoveryResult :=
  let pins1 := if bri.pinctrl then PinState.gpio else pins0
  let out := scl_recovery_loop bri (RECOVERY_CLK_CNT * 2) true 0 0 0
  let ret := if out.ret = -EOPNOTSUPP then 0 else out.ret
  let pins2 := if bri.pinctrl then PinState.default else pins1
  ⟨ret, pins2, out.nscl⟩

/-! ## Predicates used to state the address-collision properties -/

/-- Some client with the given flag-encoded address hangs directly on an
adapter with the given child list (nested adapters are not entered). -/
def direct_client_match (addr : Nat) (children : List Dev) : Bool :=
  children.any fun d =>
    match d with
    | .client c => i2c_encode_flags_to_addr c == addr
    | .adapter _ => false

mutual

/-- Some client with the given flag-encoded address appears anywhere in the
subtree rooted at this device. -/
def subtree_match (addr : Nat) (dev : Dev) : Bool :=
  match dev with
  | .client c => i2c_encode_flags_to_addr c == addr
  | .adapter children => subtree_match_list addr children

/-- Some client with the given flag-encoded address appears anywhere below
one of these devices. -/
def subtree_match_list (addr : Nat) (children : List Dev) : Bool :=
  match children with
  | [] => false
  | d :: rest => subtree_match addr d || subtree_match_list addr rest

end

/-! # Theorems -/

/-! ## Helper lemmas on Nat bitwise or -/

theorem nat_le_or_left (a b : Nat) : a ≤ a ||| b :=
  Nat.le_of_testBit (by intro i h; simp [Nat.testBit_lor, h])

theorem nat_le_or_right (a b : Nat) : b ≤ a ||| b :=
  Nat.le_of_testBit (by intro i h; simp [Nat.testBit_lor, h])

/-! ## C6 — strict 7-bit address validity -/

/-- C6: the strict validity check used for detection rejects an address
(returns -EINVAL) if and only if it is below 0x08 or above 0x77, and accepts
(returns 0) exactly the addresses in 0x08..0x77. -/
theorem C6_strict_7bit_validity (a : Nat) :
    (i2c_check_7bit_addr_validity_strict a = -EINVAL ↔ (a < 0x08 ∨ 0x77 < a)) ∧
    (i2c_check_7bit_addr_validity_strict a = 0 ↔ (0x08 ≤ a ∧ a ≤ 0x77)) := by
  unfold i2c_check_7bit_addr_validity_strict EINVAL
  by_cases h : a < 0x08 ∨ a > 0x77
  · rw [if_pos h]
    exact ⟨⟨fun _ => h, fun _ => rfl⟩,
           ⟨fun h2 => absurd h2 (by decide), fun h2 => by omega⟩⟩
  · rw [if_neg h]
    exact ⟨⟨fun h2 => absurd h2 (by decide), fun h2 => absurd h2 h⟩,
           ⟨fun _ => by omega, fun _ => rfl⟩⟩

/-! ## C9 — 7-bit and 10-bit encodings are disjoint -/

/-- The flag-encoded address of a client without the ten-bit flag (7-bit
address range) is below the ten-bit offset. -/
theorem encode_seven_bit_lt (c : Client) (hten : c.flags &&& I2C_CLIENT_TEN = 0)
    (haddr : c.addr ≤ 0x7f) : i2c_encode_flags_to_addr c < 0xa000 := by
  have h : i2c_encode_flags_to_addr c =
      if c.flags &&& I2C_CLIENT_SLAVE ≠ 0 then c.addr ||| I2C_ADDR_OFFSET_SLAVE
      else c.addr := by
    simp [i2c_encode_flags_to_addr, hten]
  rw [h]
  split
  · have hb : c.addr ||| I2C_ADDR_OFFSET_SLAVE < 2 ^ 13 :=
      Nat.or_lt_two_pow (by omega) (by norm_num [I2C_ADDR_OFFSET_SLAVE])
    omega
  · omega

/-- The flag-encoded address of a client with the ten-bit flag is at least
the ten-bit offset. -/
theorem encode_ten_bit_ge (c : Client) (hten : c.flags &&& I2C_CLIENT_TEN ≠ 0) :
    0xa000 ≤ i2c_encode_flags_to_addr c := by
  have hoff : (0xa000 : Nat) = I2C_ADDR_OFFSET_TEN_BIT := rfl
  have h : i2c_encode_flags_to_addr c =
      if c.flags &&& I2C_CLIENT_SLAVE ≠ 0 then
        (c.addr ||| I2C_ADDR_OFFSET_TEN_BIT) ||| I2C_ADDR_OFFSET_SLAVE
      else c.addr ||| I2C_ADDR_OFFSET_TEN_BIT := by
    simp [i2c_encode_flags_to_addr, hten]
  rw [h, hoff]
  split
  · exact le_trans (nat_le_or_right c.addr I2C_ADDR_OFFSET_TEN_BIT)
      (nat_le_or_left _ I2C_ADDR_OFFSET_SLAVE)
  · exact nat_le_or_right c.addr I2C_ADDR_OFFSET_TEN_BIT

/-- C9: a client without the ten-bit flag (address at most 0x7F) and a client
with the ten-bit flag (address at most 0x3FF) never share a flag-encoded
address, because the ten-bit offset 0xA000 lies above any 7-bit encoding;
consequently the busy check sees no collision between them on one adapter. -/
theorem C9_addressing_modes_disjoint (c1 c2 : Client)
    (h1 : c1.flags &&& I2C_CLIENT_TEN = 0) (h2 : c1.addr ≤ 0x7f)
    (h3 : c2.flags &&& I2C_CLIENT_TEN ≠ 0) (_h4 : c2.addr ≤ 0x3ff) :
    i2c_encode_flags_to_addr c1 ≠ i2c_encode_flags_to_addr c2 ∧
    __i2c_check_addr_busy (Dev.client c1) (i2c_encode_flags_to_addr c2) = 0 ∧
    i2c_check_addr_busy [] [Dev.client c1] (i2c_encode_flags_to_addr c2) = 0 := by
  have hne : i2c_encode_flags_to_addr c1 ≠ i2c_encode_flags_to_addr c2 := by
    have ha := encode_seven_bit_lt c1 h1 h2
    have hb := encode_ten_bit_ge c2 h3
    omega
  refine ⟨hne, ?_, ?_⟩
  · simp [__i2c_check_addr_busy, i2c_verify_client, hne]
  · simp [i2c_check_addr_busy, for_each_child_mux, i2c_check_mux_children,
      __i2c_check_addr_busy, i2c_verify_client, hne]

/-- Witness for C9 at a concrete 7-bit / 10-bit pair with the same numeric
address 0x50. -/
theorem C9_witness :
    ((Client.mk 0x50 0).flags &&& I2C_CLIENT_TEN = 0 ∧
     (Client.mk 0x50 I2C_CLIENT_TEN).flags &&& I2C_CLIENT_TEN ≠ 0) ∧
    i2c_encode_flags_to_addr (Client.mk 0x50 0) ≠
      i2c_encode_flags_to_addr (Client.mk 0x50 I2C_CLIENT_TEN) ∧
    __i2c_check_addr_busy (Dev.client (Client.mk 0x50 0))
      (i2c_encode_flags_to_addr (Client.mk 0x50 I2C_CLIENT_TEN)) = 0 ∧
    i2c_check_addr_busy [] [Dev.client (Client.mk 0x50 0)]
      (i2c_encode_flags_to_addr (Client.mk 0x50 I2C_CLIENT_TEN)) = 0 :=
  ⟨⟨by decide, by decide⟩,
    C9_addressing_modes_disjoint (Client.mk 0x50 0) (Client.mk 0x50 I2C_CLIENT_TEN)
      (by decide) (by decide) (by decide) (by decide)⟩

/-! ## C10 — unregistering a NULL or error pointer is a no-op -/

/-- C10: i2c_unregister_device called with a NULL pointer or an
ERR_PTR-encoded pointer returns immediately without unregistering anything. -/
theorem C10_unregister_err_or_null_noop (p : ClientPtr) (registered : List Client)
    (h : p = ClientPtr.null ∨ ∃ e, p = ClientPtr.errPtr e) :
    i2c_unregister_device p registered = registered := by
  rcases h with h | ⟨e, h⟩ <;> subst h <;> rfl

/-- Witness for C10 on a NULL pointer and on ERR_PTR(-EBUSY). -/
theorem C10_witness :
    i2c_unregister_device ClientPtr.null [Client.mk 0x50 0] = [Client.mk 0x50 0] ∧
    i2c_unregister_device (ClientPtr.errPtr (-EBUSY)) [Client.mk 0x50 0] =
      [Client.mk 0x50 0] :=
  ⟨C10_unregister_err_or_null_noop _ _ (Or.inl rfl),
   C10_unregister_err_or_null_noop _ _ (Or.inr ⟨-EBUSY, rfl⟩)⟩

/-! ## C8 — deleting an adapter twice is a safe no-op -/

/-- After idr_remove, the bus number no longer resolves. -/
theorem idr_find_after_remove (l : List (Nat × Nat)) (nr : Nat) :
    idr_find (idr_remove l nr) nr = none := by
  induction l with
  | nil => rfl
  | cons kv rest ih =>
    by_cases h : kv.1 = nr
    · simpa [idr_remove, List.filter_cons, h] using ih
    · simpa [idr_remove, List.filter_cons, h, idr_find] using ih

/-- C8: when the bus number no longer maps to this adapter in the registry,
i2c_del_adapter returns without modifying any state; in particular a second
deletion right after a first one is a no-op. -/
theorem C8_del_adapter_idempotent (adap : AdapterRef) (st : Registry) :
    (idr_find st.idr adap.nr ≠ some adap.uid → i2c_del_adapter adap st = st) ∧
    i2c_del_adapter adap (i2c_del_adapter adap st) = i2c_del_adapter adap st := by
  have hnoop : ∀ s : Registry, idr_find s.idr adap.nr ≠ some adap.uid →
      i2c_del_adapter adap s = s := by
    intro s h
    unfold i2c_del_adapter
    cases hf : idr_find s.idr adap.nr with
    | none => rfl
    | some uid =>
      rw [hf] at h
      have hne : uid ≠ adap.uid := fun he => h (by rw [he])
      simp [hne]
  refine ⟨hnoop st, ?_⟩
  by_cases hfind : idr_find st.idr adap.nr = some adap.uid
  · have h1 : i2c_del_adapter adap st =
        { idr := idr_remove st.idr adap.nr,
          clients := st.clients.filter (fun pc => pc.1 ≠ adap.uid) } := by
      unfold i2c_del_adapter
      rw [hfind]
      simp
    rw [h1]
    exact hnoop _ (by simp [idr_find_after_remove])
  · rw [hnoop st hfind]
    exact hnoop st hfind

/-- Witness for C8: deleting bus 1 bound to a different adapter identity
leaves the registry untouched. -/
theorem C8_witness :
    idr_find (Registry.mk [(1, 7)] []).idr 1 ≠ some 9 ∧
    i2c_del_adapter (AdapterRef.mk 1 9) (Registry.mk [(1, 7)] []) =
      Registry.mk [(1, 7)] [] :=
  ⟨by decide, (C8_del_adapter_idempotent (AdapterRef.mk 1 9)
      (Registry.mk [(1, 7)] [])).1 (by decide)⟩

/-! ## C3 — quirk violations are rejected before any bus activity -/

/-- Without combined-message mode, a batch larger than a nonzero
max_num_msgs fails quirk validation. -/
theorem quirks_count_exceeded_no_comb (q : Quirks) (msgs : List Msg)
    (hcomb : q.flags &&& I2C_AQ_COMB = 0)
    (hmax : q.max_num_msgs ≠ 0) (hcount : q.max_num_msgs < msgs.length) :
    i2c_check_for_quirks q msgs = -EOPNOTSUPP := by
  unfold i2c_check_for_quirks
  simp [hcomb, i2c_quirk_exceeded, hmax, hcount]

/-- C3: on an adapter declaring quirks with max_num_msgs = 1 (and no
combined-message mode), a 2-message batch makes __i2c_transfer return
-EOPNOTSUPP with the transfer primitive never invoked. -/
theorem C3_quirk_rejected_before_bus (adap : Adapter) (q : Quirks)
    (in_atomic : Bool) (jif : Nat → Nat) (orig : Nat) (msgs : List Msg)
    (hmx : adap.algo.master_xfer.isSome = true)
    (hq : adap.quirks = some q)
    (hcomb : q.flags &&& I2C_AQ_COMB = 0)
    (hmax : q.max_num_msgs = 1)
    (hlen : msgs.length = 2)
    (hsus : adap.is_suspended = false) :
    (__i2c_transfer adap in_atomic jif orig msgs).ret = -EOPNOTSUPP ∧
    (__i2c_transfer adap in_atomic jif orig msgs).ninvoke = 0 := by
  obtain ⟨f, hf⟩ := Option.isSome_iff_exists.mp hmx
  have hcq : i2c_check_for_quirks q msgs = -EOPNOTSUPP :=
    quirks_count_exceeded_no_comb q msgs hcomb (by omega) (by omega)
  have hlen1 : ¬ msgs.length < 1 := by omega
  unfold __i2c_transfer
  rw [hf]
  simp [hlen1, __i2c_check_suspended, hsus, hq, hcq, EOPNOTSUPP]

/-- Witness for C3: a 1-message-max adapter rejects a concrete 2-message
batch without any primitive invocation. -/
theorem C3_witness :
    ((Adapter.mk (Algo.mk (some fun _ => 2) none) (some (Quirks.mk 0 1 0 0 0 0))
        3 100 false false).algo.master_xfer.isSome = true ∧
      (Quirks.mk 0 1 0 0 0 0).max_num_msgs = 1) ∧
    (__i2c_transfer
        (Adapter.mk (Algo.mk (some fun _ => 2) none) (some (Quirks.mk 0 1 0 0 0 0))
          3 100 false false)
        false (fun _ => 0) 0 [Msg.mk 0x10 0 1, Msg.mk 0x10 1 1]).ret = -EOPNOTSUPP ∧
    (__i2c_transfer
        (Adapter.mk (Algo.mk (some fun _ => 2) none) (some (Quirks.mk 0 1 0 0 0 0))
          3 100 false false)
        false (fun _ => 0) 0 [Msg.mk 0x10 0 1, Msg.mk 0x10 1 1]).ninvoke = 0 :=
  ⟨⟨rfl, rfl⟩,
    (C3_quirk_rejected_before_bus
      (Adapter.mk (Algo.mk (some fun _ => 2) none) (some (Quirks.mk 0 1 0 0 0 0))
        3 100 false false)
      (Quirks.mk 0 1 0 0 0 0) false (fun _ => 0) 0 [Msg.mk 0x10 0 1, Msg.mk 0x10 1 1]
      rfl rfl (by decide) rfl rfl rfl).1,
    (C3_quirk_rejected_before_bus
      (Adapter.mk (Algo.mk (some fun _ => 2) none) (some (Quirks.mk 0 1 0 0 0 0))
        3 100 false false)
      (Quirks.mk 0 1 0 0 0 0) false (fun _ => 0) 0 [Msg.mk 0x10 0 1, Msg.mk 0x10 1 1]
      rfl rfl (by decide) rfl rfl rfl).2⟩

/-! ## C7 — message-count limit under combined-message mode -/

/-- C7 counterexample: an adapter declares combined-message mode with
max_num_msgs = 0 ("unlimited" as the general maximum).  The claim predicts a
3-message batch (which exceeds no declared maximum) is not rejected for its
count; the code rejects it with -EOPNOTSUPP before any bus activity, because
I2C_AQ_COMB overrides the count limit to the constant 2. -/
theorem C7_counterexample :
    (Quirks.mk I2C_AQ_COMB 0 0 0 0 0).max_num_msgs = 0 ∧
    i2c_check_for_quirks (Quirks.mk I2C_AQ_COMB 0 0 0 0 0)
      [Msg.mk 0x10 0 0, Msg.mk 0x10 0 0, Msg.mk 0x10 0 0] = -EOPNOTSUPP ∧
    (__i2c_transfer
        (Adapter.mk (Algo.mk (some fun _ => 3) none)
          (some (Quirks.mk I2C_AQ_COMB 0 0 0 0 0)) 0 100 false false)
        false (fun _ => 0) 0
        [Msg.mk 0x10 0 0, Msg.mk 0x10 0 0, Msg.mk 0x10 0 0]).ret = -EOPNOTSUPP ∧
    (__i2c_transfer
        (Adapter.mk (Algo.mk (some fun _ => 3) none)
          (some (Quirks.mk I2C_AQ_COMB 0 0 0 0 0)) 0 100 false false)
        false (fun _ => 0) 0
        [Msg.mk 0x10 0 0, Msg.mk 0x10 0 0, Msg.mk 0x10 0 0]).ninvoke = 0 :=
  ⟨rfl, rfl, rfl, rfl⟩

/-- The combined-message shape checks never read max_num_msgs. -/
theorem comb_quirk_max_num_irrelevant (q : Quirks) (m : Nat) (msgs : List Msg) :
    i2c_check_comb_quirk { q with max_num_msgs := m } msgs =
      i2c_check_comb_quirk q msgs := by
  cases msgs with
  | nil => rfl
  | cons m0 t =>
    cases t with
    | nil => rfl
    | cons m1 t2 =>
      cases t2 with
      | nil => rfl
      | cons m2 t3 => rfl

/-- The per-message length checks never read max_num_msgs. -/
theorem msgs_quirk_max_num_irrelevant (q : Quirks) (m : Nat) (dlc : Bool)
    (msgs : List Msg) :
    i2c_check_msgs_quirk { q with max_num_msgs := m } dlc msgs =
      i2c_check_msgs_quirk q dlc msgs := by
  induction msgs with
  | nil => rfl
  | cons mm rest ih =>
    have hm : i2c_check_msg_quirk { q with max_num_msgs := m } dlc mm =
        i2c_check_msg_quirk q dlc mm := rfl
    simp only [i2c_check_msgs_quirk, hm, ih]

/-- C7 (amended): when combined-message mode (I2C_AQ_COMB) is declared, the
engine enforces the constant 2 as the message-count limit instead of the
declared general maximum: every batch with more than 2 messages is rejected
with Unsupported, and the outcome of quirk validation is independent of
quirks.max_num_msgs. -/
theorem C7_amended_comb_count_limit (q : Quirks) (msgs : List Msg)
    (hcomb : q.flags &&& I2C_AQ_COMB ≠ 0) :
    (2 < msgs.length → i2c_check_for_quirks q msgs = -EOPNOTSUPP) ∧
    (∀ m : Nat, i2c_check_for_quirks { q with max_num_msgs := m } msgs =
      i2c_check_for_quirks q msgs) := by
  constructor
  · intro hlen
    match msgs, hlen with
    | m0 :: m1 :: m2 :: rest, _ =>
      have hc : i2c_check_comb_quirk q (m0 :: m1 :: m2 :: rest) = .ok true := rfl
      unfold i2c_check_for_quirks
      rw [hc]
      simp [hcomb, i2c_quirk_exceeded]
  · intro m
    unfold i2c_check_for_quirks
    cases hco : i2c_check_comb_quirk q msgs with
    | error e => simp [hcomb, comb_quirk_max_num_irrelevant, hco]
    | ok dlc =>
      simp [hcomb, comb_quirk_max_num_irrelevant, hco, msgs_quirk_max_num_irrelevant]

/-- Witness for C7 (amended): combined-message mode declared with a large
max_num_msgs still rejects a 3-message batch. -/
theorem C7_amended_witness :
    (Quirks.mk I2C_AQ_COMB 5 0 0 0 0).flags &&& I2C_AQ_COMB ≠ 0 ∧
    i2c_check_for_quirks (Quirks.mk I2C_AQ_COMB 5 0 0 0 0)
      [Msg.mk 0x10 0 0, Msg.mk 0x10 0 0, Msg.mk 0x10 0 0] = -EOPNOTSUPP :=
  ⟨by decide,
    (C7_amended_comb_count_limit (Quirks.mk I2C_AQ_COMB 5 0 0 0 0)
      [Msg.mk 0x10 0 0, Msg.mk 0x10 0 0, Msg.mk 0x10 0 0] (by decide)).1
      (by decide)⟩

/-! ## C2 — retry on arbitration loss -/

/-- Outside atomic transfer mode the dispatch always invokes master_xfer. -/
theorem do_xfer_normal (adap : Adapter) (f : Nat → Int)
    (hmx : adap.algo.master_xfer = some f) (k : Nat) :
    i2c_do_xfer adap false k = f k := by
  simp [i2c_do_xfer, hmx]

/-- A non-EAGAIN primitive result ends the retry loop at once. -/
theorem retry_loop_stop (adap : Adapter) (in_atomic : Bool) (jif : Nat → Nat)
    (orig k fuel : Nat) (h : i2c_do_xfer adap in_atomic k ≠ -EAGAIN) :
    i2c_xfer_retry_loop adap in_atomic jif orig k (fuel + 1) =
      (k + 1, i2c_do_xfer adap in_atomic k) := by
  simp [i2c_xfer_retry_loop, h]

/-- An EAGAIN result observed before the timeout elapses continues the
loop. -/
theorem retry_loop_continue (adap : Adapter) (in_atomic : Bool) (jif : Nat → Nat)
    (orig k fuel : Nat) (h : i2c_do_xfer adap in_atomic k = -EAGAIN)
    (ht : jif k ≤ orig + adap.timeout) :
    i2c_xfer_retry_loop adap in_atomic jif orig k (fuel + 1) =
      i2c_xfer_retry_loop adap in_atomic jif orig (k + 1) fuel := by
  simp [i2c_xfer_retry_loop, h, Nat.not_lt.mpr ht]

/-- When the primitive always reports arbitration loss, the loop result is
-EAGAIN. -/
theorem retry_loop_all_eagain_ret (adap : Adapter) (in_atomic : Bool)
    (jif : Nat → Nat) (orig : Nat)
    (h : ∀ k, i2c_do_xfer adap in_atomic k = -EAGAIN) :
    ∀ fuel k, (i2c_xfer_retry_loop adap in_atomic jif orig k fuel).2 = -EAGAIN := by
  intro fuel
  induction fuel with
  | zero => intro k; rfl
  | succ n ih =>
    intro k
    by_cases ht : orig + adap.timeout < jif k
    · simp [i2c_xfer_retry_loop, h k, ht]
    · rw [retry_loop_continue adap in_atomic jif orig k n (h k) (Nat.not_lt.mp ht)]
      exact ih (k + 1)

/-- When the primitive always reports arbitration loss, the loop makes no
further attempt after an observed time beyond the timeout. -/
theorem retry_loop_timeout_stop (adap : Adapter) (in_atomic : Bool)
    (jif : Nat → Nat) (orig : Nat)
    (h : ∀ k, i2c_do_xfer adap in_atomic k = -EAGAIN)
    (K : Nat) (hK : orig + adap.timeout < jif K) :
    ∀ fuel k, k ≤ K →
      (i2c_xfer_retry_loop adap in_atomic jif orig k fuel).1 ≤ K + 1 := by
  intro fuel
  induction fuel with
  | zero =>
    intro k hk
    simp only [i2c_xfer_retry_loop]
    omega
  | succ n ih =>
    intro k hk
    by_cases ht : orig + adap.timeout < jif k
    · simp only [i2c_xfer_retry_loop, h k, ht]
      simp
      omega
    · rw [retry_loop_continue adap in_atomic jif orig k n (h k) (Nat.not_lt.mp ht)]
      apply ih
      have hkK : k ≠ K := fun he => ht (he ▸ hK)
      omega

/-- Once the preconditions pass and no quirks are declared, __i2c_transfer
is the retry loop run with fuel retries + 1. -/
theorem transfer_reaches_loop (adap : Adapter) (f : Nat → Int) (in_atomic : Bool)
    (jif : Nat → Nat) (orig : Nat) (msgs : List Msg)
    (hmx : adap.algo.master_xfer = some f) (hmsgs : msgs ≠ [])
    (hsus : adap.is_suspended = false) (hq : adap.quirks = none) :
    __i2c_transfer adap in_atomic jif orig msgs =
      ⟨(i2c_xfer_retry_loop adap in_atomic jif orig 0 (adap.retries + 1)).2,
       (i2c_xfer_retry_loop adap in_atomic jif orig 0 (adap.retries + 1)).1,
       adap, false⟩ := by
  have hlen : ¬ msgs.length < 1 := by
    cases msgs with
    | nil => exact absurd rfl hmsgs
    | cons a t => simp
  unfold __i2c_transfer
  rw [hmx]
  simp [hlen, __i2c_check_suspended, hsus, hq]

/-- C2: with a primitive that reports arbitration loss (-EAGAIN) exactly
twice before the timeout and then succeeds, __i2c_transfer (retries ≥ 2)
returns the third result after exactly 3 invocations; with a primitive that
always reports arbitration loss it returns -EAGAIN and stops retrying once
the observed time exceeds orig_jiffies + timeout; any non-EAGAIN first
result ends the loop immediately with exactly 1 invocation. -/
theorem C2_retry_on_arbitration_loss (adap : Adapter) (f : Nat → Int)
    (jif : Nat → Nat) (orig : Nat) (msgs : List Msg)
    (hmx : adap.algo.master_xfer = some f)
    (hmsgs : msgs ≠ [])
    (hsus : adap.is_suspended = false)
    (hq : adap.quirks = none) :
    ((f 0 = -EAGAIN ∧ f 1 = -EAGAIN ∧ f 2 ≠ -EAGAIN ∧ 0 ≤ f 2 ∧
        2 ≤ adap.retries ∧
        jif 0 ≤ orig + adap.timeout ∧ jif 1 ≤ orig + adap.timeout) →
      (__i2c_transfer adap false jif orig msgs).ret = f 2 ∧
      (__i2c_transfer adap false jif orig msgs).ninvoke = 3) ∧
    ((∀ k, f k = -EAGAIN) →
      (__i2c_transfer adap false jif orig msgs).ret = -EAGAIN ∧
      (∀ K, orig + adap.timeout < jif K →
        (__i2c_transfer adap false jif orig msgs).ninvoke ≤ K + 1)) ∧
    (f 0 ≠ -EAGAIN →
      (__i2c_transfer adap false jif orig msgs).ret = f 0 ∧
      (__i2c_transfer adap false jif orig msgs).ninvoke = 1) := by
  have hdo : ∀ k, i2c_do_xfer adap false k = f k := do_xfer_normal adap f hmx
  have htr := transfer_reaches_loop adap f false jif orig msgs hmx hmsgs hsus hq
  refine ⟨?_, ?_, ?_⟩
  · rintro ⟨h0, h1, h2, _hpos, hr, hj0, hj1⟩
    obtain ⟨m, hm⟩ : ∃ m, adap.retries = 2 + m := ⟨adap.retries - 2, by omega⟩
    have e1 : i2c_xfer_retry_loop adap false jif orig 0 (m + 3) =
        i2c_xfer_retry_loop adap false jif orig 1 (m + 2) :=
      retry_loop_continue adap false jif orig 0 (m + 2) (by rw [hdo 0]; exact h0) hj0
    have e2 : i2c_xfer_retry_loop adap false jif orig 1 (m + 2) =
        i2c_xfer_retry_loop adap false jif orig 2 (m + 1) :=
      retry_loop_continue adap false jif orig 1 (m + 1) (by rw [hdo 1]; exact h1) hj1
    have e3 : i2c_xfer_retry_loop adap false jif orig 2 (m + 1) = (3, f 2) := by
      rw [retry_loop_stop adap false jif orig 2 m (by rw [hdo 2]; exact h2), hdo 2]
    have hloop : i2c_xfer_retry_loop adap false jif orig 0 (adap.retries + 1) =
        (3, f 2) := by
      rw [show adap.retries + 1 = m + 3 by omega, e1, e2, e3]
    rw [htr]
    exact ⟨by rw [hloop], by rw [hloop]⟩
  · intro hall
    have hall2 : ∀ k, i2c_do_xfer adap false k = -EAGAIN := fun k => by
      rw [hdo k]; exact hall k
    refine ⟨?_, ?_⟩
    · rw [htr]
      exact retry_loop_all_eagain_ret adap false jif orig hall2 (adap.retries + 1) 0
    · intro K hK
      rw [htr]
      exact retry_loop_timeout_stop adap false jif orig hall2 K hK
        (adap.retries + 1) 0 (Nat.zero_le K)
  · intro h0
    have e := retry_loop_stop adap false jif orig 0 adap.retries
      (by rw [hdo 0]; exact h0)
    rw [htr]
    exact ⟨by rw [e, hdo 0], by rw [e]⟩

/-- Witness for C2 on three concrete primitives: two arbitration losses then
success, permanent arbitration loss with an elapsed timeout, and an
immediately successful primitive. -/
theorem C2_witness :
    ((__i2c_transfer
        (Adapter.mk (Algo.mk (some fun k => if k < 2 then -11 else 1) none)
          none 2 100 false false)
        false (fun _ => 0) 0 [Msg.mk 0x10 0 1]).ret = 1 ∧
      (__i2c_transfer
        (Adapter.mk (Algo.mk (some fun k => if k < 2 then -11 else 1) none)
          none 2 100 false false)
        false (fun _ => 0) 0 [Msg.mk 0x10 0 1]).ninvoke = 3) ∧
    ((__i2c_transfer
        (Adapter.mk (Algo.mk (some fun _ => -11) none) none 5 100 false false)
        false (fun _ => 200) 0 [Msg.mk 0x10 0 1]).ret = -EAGAIN ∧
      (__i2c_transfer
        (Adapter.mk (Algo.mk (some fun _ => -11) none) none 5 100 false false)
        false (fun _ => 200) 0 [Msg.mk 0x10 0 1]).ninvoke ≤ 1) ∧
    ((__i2c_transfer
        (Adapter.mk (Algo.mk (some fun _ => 5) none) none 3 100 false false)
        false (fun _ => 0) 0 [Msg.mk 0x10 0 1]).ret = 5 ∧
      (__i2c_transfer
        (Adapter.mk (Algo.mk (some fun _ => 5) none) none 3 100 false false)
        false (fun _ => 0) 0 [Msg.mk 0x10 0 1]).ninvoke = 1) := by
  refine ⟨?_, ?_, ?_⟩
  · have h := (C2_retry_on_arbitration_loss
      (Adapter.mk (Algo.mk (some fun k => if k < 2 then -11 else 1) none)
        none 2 100 false false)
      (fun k => if k < 2 then -11 else 1) (fun _ => 0) 0 [Msg.mk 0x10 0 1]
      rfl (by decide) rfl rfl).1
      ⟨by decide, by decide, by decide, by decide, by decide, by decide, by decide⟩
    exact ⟨h.1.trans (by decide), h.2⟩
  · have h := (C2_retry_on_arbitration_loss
      (Adapter.mk (Algo.mk (some fun _ => -11) none) none 5 100 false false)
      (fun _ => -11) (fun _ => 200) 0 [Msg.mk 0x10 0 1]
      rfl (by decide) rfl rfl).2.1 (fun k => rfl)
    exact ⟨h.1, h.2 0 (by decide)⟩
  · have h := (C2_retry_on_arbitration_loss
      (Adapter.mk (Algo.mk (some fun _ => 5) none) none 3 100 false false)
      (fun _ => 5) (fun _ => 0) 0 [Msg.mk 0x10 0 1]
      rfl (by decide) rfl rfl).2.2 (by decide)
    exact ⟨by rw [h.1], h.2⟩

/-! ## C4 — transfer preconditions and suspended-report suppression -/

/-- C4: the transfer engine rejects, in order: a missing transfer primitive
with -EOPNOTSUPP, an empty batch with -EINVAL, and a suspended adapter with
-ESHUTDOWN — the latter warning exactly on the first rejection (the
SUSPEND_REPORTED bit is set and every later rejection is silent), with the
transfer primitive never invoked. -/
theorem C4_transfer_preconditions (adap : Adapter) (in_atomic : Bool)
    (jif : Nat → Nat) (orig : Nat) (msgs : List Msg) :
    (adap.algo.master_xfer = none →
      __i2c_transfer adap in_atomic jif orig msgs =
        ⟨-EOPNOTSUPP, 0, adap, false⟩) ∧
    (adap.algo.master_xfer.isSome = true → msgs = [] →
      __i2c_transfer adap in_atomic jif orig msgs = ⟨-EINVAL, 0, adap, false⟩) ∧
    (adap.algo.master_xfer.isSome = true → msgs ≠ [] → adap.is_suspended = true →
      (__i2c_transfer adap in_atomic jif orig msgs).ret = -ESHUTDOWN ∧
      (__i2c_transfer adap in_atomic jif orig msgs).ninvoke = 0 ∧
      ((__i2c_transfer adap in_atomic jif orig msgs).warned = true ↔
        adap.suspend_reported = false) ∧
      (__i2c_transfer adap in_atomic jif orig msgs).adap.suspend_reported = true ∧
      (__i2c_transfer ((__i2c_transfer adap in_atomic jif orig msgs).adap)
          in_atomic jif orig msgs).warned = false) := by
  refine ⟨?_, ?_, ?_⟩
  · intro h
    unfold __i2c_transfer
    rw [h]
  · intro hmx hnil
    obtain ⟨f, hf⟩ := Option.isSome_iff_exists.mp hmx
    subst hnil
    unfold __i2c_transfer
    rw [hf]
    simp
  · intro hmx hne hsusp
    obtain ⟨f, hf⟩ := Option.isSome_iff_exists.mp hmx
    have hl : ¬ msgs.length < 1 := by
      cases msgs with
      | nil => exact absurd rfl hne
      | cons a t => simp
    cases hrep : adap.suspend_reported
    · have h1 : __i2c_transfer adap in_atomic jif orig msgs =
          ⟨-ESHUTDOWN, 0, { adap with suspend_reported := true }, true⟩ := by
        unfold __i2c_transfer
        rw [hf]
        simp [hl, __i2c_check_suspended, hsusp, hrep, ESHUTDOWN]
      have h2 : __i2c_transfer { adap with suspend_reported := true }
          in_atomic jif orig msgs =
          ⟨-ESHUTDOWN, 0, { adap with suspend_reported := true }, false⟩ := by
        unfold __i2c_transfer
        simp [hf, hl, __i2c_check_suspended, hsusp, ESHUTDOWN]
      rw [h1]
      exact ⟨rfl, rfl, by simp [hrep], rfl, by rw [h2]⟩
    · have h1 : __i2c_transfer adap in_atomic jif orig msgs =
          ⟨-ESHUTDOWN, 0, adap, false⟩ := by
        unfold __i2c_transfer
        rw [hf]
        simp [hl, __i2c_check_suspended, hsusp, hrep, ESHUTDOWN]
      rw [h1]
      exact ⟨rfl, rfl, by simp [hrep], hrep, by rw [h1]⟩

/-- Witness for C4 on three concrete adapters: one without a primitive, one
with an empty batch, and a suspended one (called twice). -/
theorem C4_witness :
    __i2c_transfer (Adapter.mk (Algo.mk none none) none 0 100 false false)
        false (fun _ => 0) 0 [Msg.mk 0x10 0 1] =
      ⟨-EOPNOTSUPP, 0, Adapter.mk (Algo.mk none none) none 0 100 false false,
        false⟩ ∧
    __i2c_transfer (Adapter.mk (Algo.mk (some fun _ => 1) none) none 0 100 false false)
        false (fun _ => 0) 0 [] =
      ⟨-EINVAL, 0,
        Adapter.mk (Algo.mk (some fun _ => 1) none) none 0 100 false false,
        false⟩ ∧
    (__i2c_transfer
        (Adapter.mk (Algo.mk (some fun _ => 1) none) none 0 100 true false)
        false (fun _ => 0) 0 [Msg.mk 0x10 0 1]).ret = -ESHUTDOWN ∧
    ((__i2c_transfer
        (Adapter.mk (Algo.mk (some fun _ => 1) none) none 0 100 true false)
        false (fun _ => 0) 0 [Msg.mk 0x10 0 1]).warned = true ↔
      (Adapter.mk (Algo.mk (some fun _ => 1) none) none 0 100 true
          false).suspend_reported = false) ∧
    (__i2c_transfer
        ((__i2c_transfer
            (Adapter.mk (Algo.mk (some fun _ => 1) none) none 0 100 true false)
            false (fun _ => 0) 0 [Msg.mk 0x10 0 1]).adap)
        false (fun _ => 0) 0 [Msg.mk 0x10 0 1]).warned = false := by
  refine ⟨?_, ?_, ?_, ?_, ?_⟩
  · exact (C4_transfer_preconditions
      (Adapter.mk (Algo.mk none none) none 0 100 false false)
      false (fun _ => 0) 0 [Msg.mk 0x10 0 1]).1 rfl
  · exact (C4_transfer_preconditions
      (Adapter.mk (Algo.mk (some fun _ => 1) none) none 0 100 false false)
      false (fun _ => 0) 0 []).2.1 rfl rfl
  · exact ((C4_transfer_preconditions
      (Adapter.mk (Algo.mk (some fun _ => 1) none) none 0 100 true false)
      false (fun _ => 0) 0 [Msg.mk 0x10 0 1]).2.2 rfl (by decide) rfl).1
  · exact ((C4_transfer_preconditions
      (Adapter.mk (Algo.mk (some fun _ => 1) none) none 0 100 true false)
      false (fun _ => 0) 0 [Msg.mk 0x10 0 1]).2.2 rfl (by decide) rfl).2.2.1
  · exact ((C4_transfer_preconditions
      (Adapter.mk (Algo.mk (some fun _ => 1) none) none 0 100 true false)
      false (fun _ => 0) 0 [Msg.mk 0x10 0 1]).2.2 rfl (by decide) rfl).2.2.2.2

/-! ## C5 — clock-stuck abort and pin-mux restoration -/

/-- If any get_scl reading actually taken during the pulse loop is low, the
loop ends with -EBUSY. -/
theorem scl_loop_stuck_low (bri : RecoveryInfo) :
    ∀ (fuel : Nat) (scl : Bool) (jscl jfree : Nat) (ret : Int),
      (∃ j, jscl ≤ j ∧ j < (scl_recovery_loop bri fuel scl jscl jfree ret).nscl ∧
        bri.scl_read j = false) →
      (scl_recovery_loop bri fuel scl jscl jfree ret).ret = -EBUSY := by
  intro fuel
  induction fuel with
  | zero =>
    rintro scl jscl jfree ret ⟨j, hj1, hj2, _⟩
    have : (scl_recovery_loop bri 0 scl jscl jfree ret).nscl = jscl := rfl
    omega
  | succ n ih =>
    rintro scl jscl jfree ret h
    cases scl with
    | true =>
      by_cases hs : bri.scl_read jscl = true
      · have heq : scl_recovery_loop bri (n + 1) true jscl jfree ret =
            scl_recovery_loop bri n false (jscl + 1) jfree ret := by
          simp [scl_recovery_loop, hs]
        rw [heq] at h ⊢
        obtain ⟨j, hj1, hj2, hjf⟩ := h
        have hne : j ≠ jscl := fun he => by rw [he, hs] at hjf; exact absurd hjf (by simp)
        exact ih false (jscl + 1) jfree ret ⟨j, by omega, hj2, hjf⟩
      · have heq : scl_recovery_loop bri (n + 1) true jscl jfree ret =
            ⟨-EBUSY, jscl + 1⟩ := by
          simp [scl_recovery_loop, hs, Bool.not_eq_true _ ▸ hs]
        rw [heq]
    | false =>
      by_cases hr : i2c_generic_bus_free bri jfree = 0
      · have heq : scl_recovery_loop bri (n + 1) false jscl jfree ret =
            ⟨i2c_generic_bus_free bri jfree, jscl⟩ := by
          simp [scl_recovery_loop, hr]
        rw [heq] at h
        obtain ⟨j, hj1, hj2, _⟩ := h
        exact absurd hj2 (by simp; omega)
      · have heq : scl_recovery_loop bri (n + 1) false jscl jfree ret =
            scl_recovery_loop bri n true jscl (jfree + 1)
              (i2c_generic_bus_free bri jfree) := by
          simp [scl_recovery_loop, hr]
        rw [heq] at h ⊢
        exact ih true jscl (jfree + 1) (i2c_generic_bus_free bri jfree) h

/-- C5: a run of i2c_generic_scl_recovery in which some performed clock-line
check (taken while SCL should be high, before the next rising edge) reads
low aborts with -EBUSY; and on every exit path the pin-mux state is switched
back to the default state when a pinctrl handle exists, and is untouched
otherwise. -/
theorem C5_recovery_stuck_and_pinmux (bri : RecoveryInfo) (pins0 : PinState) :
    ((∃ j, j < (i2c_generic_scl_recovery bri pins0).nscl ∧
        bri.scl_read j = false) →
      (i2c_generic_scl_recovery bri pins0).ret = -EBUSY) ∧
    (bri.pinctrl = true →
      (i2c_generic_scl_recovery bri pins0).pins = PinState.default) ∧
    (bri.pinctrl = false →
      (i2c_generic_scl_recovery bri pins0).pins = pins0) := by
  refine ⟨?_, ?_, ?_⟩
  · rintro ⟨j, hj, hjf⟩
    have hn : (i2c_generic_scl_recovery bri pins0).nscl =
        (scl_recovery_loop bri (RECOVERY_CLK_CNT * 2) true 0 0 0).nscl := rfl
    have hstuck := scl_loop_stuck_low bri (RECOVERY_CLK_CNT * 2) true 0 0 0
      ⟨j, Nat.zero_le j, by rw [← hn]; exact hj, hjf⟩
    simp only [i2c_generic_scl_recovery]
    rw [hstuck]
    norm_num [EBUSY, EOPNOTSUPP]
  · intro hp
    unfold i2c_generic_scl_recovery
    simp [hp]
  · intro hp
    unfold i2c_generic_scl_recovery
    simp [hp]

/-- Witness for C5: a clock line stuck low at the first check, behind a
pinctrl handle; recovery aborts with -EBUSY and the pin-mux is back at the
default state. -/
theorem C5_witness :
    (0 < (i2c_generic_scl_recovery
        (RecoveryInfo.mk (fun _ => false) true none (some fun _ => 0) true)
        PinState.default).nscl ∧
      (RecoveryInfo.mk (fun _ => false) true none (some fun _ => 0)
        true).scl_read 0 = false) ∧
    (i2c_generic_scl_recovery
        (RecoveryInfo.mk (fun _ => false) true none (some fun _ => 0) true)
        PinState.default).ret = -EBUSY ∧
    (i2c_generic_scl_recovery
        (RecoveryInfo.mk (fun _ => false) true none (some fun _ => 0) true)
        PinState.default).pins = PinState.default :=
  ⟨⟨by decide, rfl⟩,
    (C5_recovery_stuck_and_pinmux
      (RecoveryInfo.mk (fun _ => false) true none (some fun _ => 0) true)
      PinState.default).1 ⟨0, by decide, rfl⟩,
    (C5_recovery_stuck_and_pinmux
      (RecoveryInfo.mk (fun _ => false) true none (some fun _ => 0) true)
      PinState.default).2.1 rfl⟩

/-! ## C1 — address collision on client creation -/

/-- The direct-children walk reports -EBUSY exactly when a client with the
probed flag-encoded address hangs directly on the child list. -/
theorem for_each_child_addr_busy_eq (children : List Dev) (addr : Nat) :
    for_each_child_addr_busy children addr =
      if direct_client_match addr children = true then -EBUSY else 0 := by
  induction children with
  | nil => rfl
  | cons d rest ih =>
    cases d with
    | client c =>
      by_cases h : i2c_encode_flags_to_addr c = addr
      · simp [for_each_child_addr_busy, __i2c_check_addr_busy, i2c_verify_client,
          h, direct_client_match, EBUSY]
      · simp only [for_each_child_addr_busy, __i2c_check_addr_busy,
          i2c_verify_client, direct_client_match] at *
        simp [h, ih]
    | adapter l =>
      simp only [for_each_child_addr_busy, __i2c_check_addr_busy,
        i2c_verify_client, direct_client_match] at *
      simp [ih]

/-- The parent walk reports -EBUSY exactly when some ancestor has a matching
client among its direct children. -/
theorem mux_parents_eq (chain : List (List Dev)) (addr : Nat) :
    i2c_check_mux_parents chain addr =
      if chain.any (fun l => direct_client_match addr l) = true then -EBUSY
      else 0 := by
  induction chain with
  | nil => rfl
  | cons children parents ih =>
    by_cases h : direct_client_match addr children = true
    · simp [i2c_check_mux_parents, for_each_child_addr_busy_eq, h, EBUSY]
    · simp [i2c_check_mux_parents, for_each_child_addr_busy_eq, h, ih]

mutual

/-- The downward walk over one device reports -EBUSY exactly when a matching
client appears in its subtree. -/
theorem mux_children_eq (d : Dev) (addr : Nat) :
    i2c_check_mux_children d addr =
      if subtree_match addr d = true then -EBUSY else 0 := by
  match d with
  | .client c =>
    by_cases h : i2c_encode_flags_to_addr c = addr
    · simp [i2c_check_mux_children, __i2c_check_addr_busy, i2c_verify_client,
        h, subtree_match]
    · simp [i2c_check_mux_children, __i2c_check_addr_busy, i2c_verify_client,
        h, subtree_match]
  | .adapter l =>
    rw [show i2c_check_mux_children (.adapter l) addr =
        for_each_child_mux l addr from rfl]
    rw [for_each_child_mux_eq l addr]
    simp [subtree_match]

/-- The downward walk over a child list reports -EBUSY exactly when a
matching client appears below one of the children. -/
theorem for_each_child_mux_eq (l : List Dev) (addr : Nat) :
    for_each_child_mux l addr =
      if subtree_match_list addr l = true then -EBUSY else 0 := by
  match l with
  | [] => rfl
  | d :: rest =>
    have h1 := mux_children_eq d addr
    have h2 := for_each_child_mux_eq rest addr
    by_cases h : subtree_match addr d = true
    · simp [for_each_child_mux, h1, h, subtree_match_list, EBUSY]
    · simp [for_each_child_mux, h1, h2, h, subtree_match_list]

end

/-- i2c_check_addr_busy reports -EBUSY exactly when a matching client hangs
directly on some ancestor or appears anywhere in the target's subtree. -/
theorem check_addr_busy_eq (ancestors : List (List Dev)) (children : List Dev)
    (addr : Nat) :
    i2c_check_addr_busy ancestors children addr =
      if (ancestors.any (fun l => direct_client_match addr l) ||
          subtree_match_list addr children) = true then -EBUSY else 0 := by
  cases ancestors with
  | nil => simp [i2c_check_addr_busy, for_each_child_mux_eq]
  | cons a rest =>
    by_cases h : (a :: rest).any (fun l => direct_client_match addr l) = true
    · simp [i2c_check_addr_busy, mux_parents_eq, h, EBUSY]
    · simp [i2c_check_addr_busy, mux_parents_eq, h, for_each_child_mux_eq]

/-- C1 (amended): creating a client whose flag-encoded address collides with
an existing client that hangs directly on an ancestor adapter, or that lives
anywhere in the subtree of the target adapter (the cases i2c_check_addr_busy
examines), fails with -EBUSY, and the adapter state — child list and
instantiation bitmap — is left unchanged.  Collisions with clients living in
sibling subtrees reachable only through a shared ancestor are not covered:
the code does not walk those (see the counterexample). -/
theorem C1_amended_collision_rejected (ancestors : List (List Dev))
    (st : AdapterState) (info : BoardInfo)
    (hvalid : i2c_check_addr_validity info.addr info.flags = 0)
    (hconf :
      ancestors.any (fun l => direct_client_match
        (i2c_encode_flags_to_addr (Client.mk info.addr info.flags)) l) = true ∨
      subtree_match_list
        (i2c_encode_flags_to_addr (Client.mk info.addr info.flags))
        st.children = true) :
    (i2c_new_client_device ancestors st info).1 = .error (-EBUSY) ∧
    (i2c_new_client_device ancestors st info).2 = st := by
  have hbusy : i2c_check_addr_busy ancestors st.children
      (i2c_encode_flags_to_addr (Client.mk info.addr info.flags)) = -EBUSY := by
    rw [check_addr_busy_eq]
    rcases hconf with h | h <;> simp [h]
  by_cases hten : info.flags &&& I2C_CLIENT_TEN = 0
  · by_cases hmem : info.addr ∈ st.addrs_in_instantiation
    · have hlock : i2c_lock_addr st.addrs_in_instantiation info.addr info.flags =
          (-EBUSY, st.addrs_in_instantiation) := by
        simp [i2c_lock_addr, hten, hmem]
      unfold i2c_new_client_device
      simp [hvalid, hlock, EBUSY]
    · have hlock : i2c_lock_addr st.addrs_in_instantiation info.addr info.flags =
          (0, info.addr :: st.addrs_in_instantiation) := by
        simp [i2c_lock_addr, hten, hmem]
      have hunlock : i2c_unlock_addr (info.addr :: st.addrs_in_instantiation)
          info.addr info.flags = st.addrs_in_instantiation := by
        simp [i2c_unlock_addr, hten]
      unfold i2c_new_client_device
      simp [hvalid, hlock, hbusy, hunlock, EBUSY]
  · have hlock : i2c_lock_addr st.addrs_in_instantiation info.addr info.flags =
        (0, st.addrs_in_instantiation) := by
      simp [i2c_lock_addr, hten]
    have hunlock : i2c_unlock_addr st.addrs_in_instantiation
        info.addr info.flags = st.addrs_in_instantiation := by
      simp [i2c_unlock_addr, hten]
    unfold i2c_new_client_device
    simp [hvalid, hlock, hbusy, hunlock, EBUSY]

/-- Witness for C1 (amended): the requested address 0x50 collides with a
client directly on the target adapter. -/
theorem C1_amended_witness :
    (i2c_check_addr_validity (BoardInfo.mk 0x50 0).addr (BoardInfo.mk 0x50 0).flags = 0 ∧
      subtree_match_list
        (i2c_encode_flags_to_addr (Client.mk 0x50 0))
        [Dev.client (Client.mk 0x50 0)] = true) ∧
    (i2c_new_client_device [] (AdapterState.mk [Dev.client (Client.mk 0x50 0)] [])
        (BoardInfo.mk 0x50 0)).1 = .error (-EBUSY) ∧
    (i2c_new_client_device [] (AdapterState.mk [Dev.client (Client.mk 0x50 0)] [])
        (BoardInfo.mk 0x50 0)).2 =
      AdapterState.mk [Dev.client (Client.mk 0x50 0)] [] :=
  ⟨⟨by decide, rfl⟩,
    C1_amended_collision_rejected []
      (AdapterState.mk [Dev.client (Client.mk 0x50 0)] []) (BoardInfo.mk 0x50 0)
      (by decide) (Or.inr rfl)⟩

/-- C1 counterexample: two mux adapters hang as siblings beneath a common
root; a client with encoded address 0x50 exists on the first.  Creating a
client with the same encoded address on the second — both adapters are
descendants of the shared root, the case the claim also requires to fail —
succeeds and registers the device, because the upward walk inspects only the
root's direct children (both are adapters, not clients) and the downward
walk inspects only the target's own (empty) subtree. -/
theorem C1_counterexample :
    (i2c_new_client_device
        [[Dev.adapter [Dev.client (Client.mk 0x50 0)], Dev.adapter []]]
        (AdapterState.mk [] []) (BoardInfo.mk 0x50 0)).1 =
      .ok (Client.mk 0x50 0) ∧
    (i2c_new_client_device
        [[Dev.adapter [Dev.client (Client.mk 0x50 0)], Dev.adapter []]]
        (AdapterState.mk [] []) (BoardInfo.mk 0x50 0)).2.children =
      [Dev.client (Client.mk 0x50 0)] :=
  ⟨rfl, rfl⟩

end I2C
